import Mathlib

/-!
# CMake tutorial, Step2: `tutorial.cxx`

A shallow embedding of `main` of `Step2/tutorial.cxx` and the properties of its
control flow, output and exit status.

The program's own code is `main`.  What it calls is the C++ standard library:

* `std::stod`, which the C++ standard defines through C's `strtod`.  Its
  lexical side (skip white space, take the longest subject sequence that has
  the form of a floating-point number, an infinity or a NaN) is written out
  below following ISO C 7.22.1.3 in the "C" locale, the locale `main` runs in
  since it never calls `setlocale`.
* the arithmetic of `double`: the value of a subject sequence, `sqrt` and the
  stream's rendering of a `double`.  These are kept abstract, as the fields of
  `Lib`, and every general theorem holds for every such library.

`TutorialConfig.h` is generated by the build; the two macros `main` reads from
it are the fields of `Config`.
-/

namespace Tutorial

/-! ## Characters, as `<cctype>` classifies them in the "C" locale -/

/-- The white-space characters: space, and `\t \n \v \f \r` (codes 9 to 13). -/
def isspace (c : Char) : Bool :=
  c.toNat == 32 || (9 ≤ c.toNat && c.toNat ≤ 13)

/-- The decimal digits `0` to `9`. -/
def isdigit (c : Char) : Bool :=
  48 ≤ c.toNat && c.toNat ≤ 57

/-- The hexadecimal digits `0`-`9`, `A`-`F`, `a`-`f`. -/
def isxdigit (c : Char) : Bool :=
  isdigit c || (65 ≤ c.toNat && c.toNat ≤ 70) || (97 ≤ c.toNat && c.toNat ≤ 102)

/-- The letters `A`-`Z`, `a`-`z`. -/
def isalpha (c : Char) : Bool :=
  (65 ≤ c.toNat && c.toNat ≤ 90) || (97 ≤ c.toNat && c.toNat ≤ 122)

/-- The code of `c` with an upper-case letter mapped to its lower-case one. -/
def lowerCode (c : Char) : Nat :=
  if 65 ≤ c.toNat && c.toNat ≤ 90 then c.toNat + 32 else c.toNat

/-- The characters allowed between the parentheses of `nan(...)`: digits,
letters and the underscore. -/
def isNChar (c : Char) : Bool :=
  isdigit c || isalpha c || c.toNat == 95

/-! ## The subject sequence of `strtod` -/

/-- Length of the longest leading run of characters that satisfy `p`. -/
def spanLen (p : Char → Bool) (cs : List Char) : Nat :=
  (cs.takeWhile p).length

/-- Whether `cs` starts with the lower-case word `word`, ignoring the case of
the letters of `cs`. -/
def startsWithNoCase (word : List Char) (cs : List Char) : Bool :=
  word.length ≤ cs.length && (cs.take word.length).map lowerCode == word.map Char.toNat

/-- Length of an optional sign at the head of `cs`: 1 for `+` or `-`, else 0. -/
def signLen (cs : List Char) : Nat :=
  match cs with
  | c :: _ => if c = '+' ∨ c = '-' then 1 else 0
  | [] => 0

/-- Length of a digit sequence that may contain one radix character `.` and has
at least one digit (`12`, `12.`, `12.5`, `.5`); 0 when `cs` starts with none. -/
def mantissaLen (digit : Char → Bool) (cs : List Char) : Nat :=
  let i := spanLen digit cs
  match cs.drop i with
  | c :: rest =>
    if c = '.' then
      let f := spanLen digit rest
      if i = 0 ∧ f = 0 then 0 else i + 1 + f
    else i
  | [] => i

/-- Length of an exponent part at the head of `cs`: the marker letter (code
`marker`, either case), an optional sign, and at least one decimal digit; 0
when `cs` does not start with a complete exponent part. -/
def exponentLen (marker : Nat) (cs : List Char) : Nat :=
  match cs with
  | c :: rest =>
    if lowerCode c = marker then
      let s := signLen rest
      let d := spanLen isdigit (rest.drop s)
      if d = 0 then 0 else 1 + s + d
    else 0
  | [] => 0

/-- Length of a decimal floating-point number at the head of `cs`. -/
def decimalLen (cs : List Char) : Nat :=
  let m := mantissaLen isdigit cs
  if m = 0 then 0 else m + exponentLen 101 (cs.drop m)

/-- Length of a hexadecimal floating-point number (`0x` or `0X`, hexadecimal
digits with an optional radix character, an optional binary exponent `p`) at
the head of `cs`; 0 when there is none. -/
def hexLen (cs : List Char) : Nat :=
  match cs with
  | z :: x :: rest =>
    if z = '0' ∧ lowerCode x = 120 then
      let m := mantissaLen isxdigit rest
      if m = 0 then 0 else 2 + m + exponentLen 112 (rest.drop m)
    else 0
  | _ => 0

/-- Length of `inf` or `infinity` (any case) at the head of `cs`. -/
def infLen (cs : List Char) : Nat :=
  if startsWithNoCase "infinity".toList cs then 8
  else if startsWithNoCase "inf".toList cs then 3
  else 0

/-- Length of `nan` or `nan(n-char-sequence)` (any case of `nan`) at the head
of `cs`. -/
def nanLen (cs : List Char) : Nat :=
  if startsWithNoCase "nan".toList cs then
    match cs.drop 3 with
    | o :: rest =>
      if o = '(' then
        let k := spanLen isNChar rest
        match rest.drop k with
        | c :: _ => if c = ')' then 3 + 1 + k + 1 else 3
        | [] => 3
      else 3
    | [] => 3
  else 0

/-- Length of the subject sequence without its sign: the longest of the forms
`strtod` accepts that `cs` starts with. -/
def unsignedLen (cs : List Char) : Nat :=
  max (max (hexLen cs) (decimalLen cs)) (max (infLen cs) (nanLen cs))

/-- Length of the subject sequence of `strtod` at the head of `cs` (white
space already skipped): an optional sign and then a number, an infinity or a
NaN; 0 when `cs` starts with no such sequence. -/
def subjectLen (cs : List Char) : Nat :=
  let s := signLen cs
  let n := unsignedLen (cs.drop s)
  if n = 0 then 0 else s + n

/-- Number of characters `strtod` consumes from `cs`: the leading white space
and the subject sequence; 0 when no conversion can be performed. -/
def consumed (cs : List Char) : Nat :=
  let ws := spanLen isspace cs
  let n := subjectLen (cs.drop ws)
  if n = 0 then 0 else ws + n

/-! ## The library `main` is linked against -/

/-- The arithmetic of `double` that the program uses, for a type `D` of
doubles. -/
structure Lib (D : Type) where
  /-- The value `strtod` gives a subject sequence, `none` when it reports a
  range error (`errno == ERANGE`). -/
  convert : List Char → Option D
  /-- The function `sqrt` of `<cmath>`. -/
  sqrt : D → D
  /-- The characters `std::cout << x` writes for a double, in the stream's
  initial format. -/
  put : D → String
  /-- The comparison `x < 0`. -/
  ltZero : D → Bool
  /-- The test `std::isnan`. -/
  isnan : D → Bool
  /-- The square root of a value less than zero is a NaN (ISO C F.10.4.5). -/
  sqrt_domain : ∀ x, ltZero x = true → isnan (sqrt x) = true

/-- The exceptions `std::stod` throws. -/
inductive StodError
  | invalid_argument
  | out_of_range
  deriving DecidableEq, Repr

/-- The function `std::stod (str, idx)` of the C++ standard library, written
from its definition in the C++ standard (it calls `strtod`; it throws
`std::invalid_argument` when no conversion can be performed and
`std::out_of_range` on a range error): the converted value and the number of
characters processed (what `*idx` receives), or the exception thrown. -/
def stod {D : Type} (L : Lib D) (str : String) : Except StodError (D × Nat) :=
  let cs := str.toList
  let ws := spanLen isspace cs
  let n := subjectLen (cs.drop ws)
  if n = 0 then .error .invalid_argument
  else
    match L.convert ((cs.drop ws).take n) with
    | none => .error .out_of_range
    | some x => .ok (x, ws + n)

/-! ## The program -/

/-- The macros of the generated header `TutorialConfig.h`, which the build
fills in with the components of the project version (non-negative integers);
the header is not among the sources, so the two values are parameters. -/
structure Config where
  Tutorial_VERSION_MAJOR : Nat
  Tutorial_VERSION_MINOR : Nat

/-- How a run ends. -/
inductive Termination
  /-- The function `main` returns `code`, the exit code of the process. -/
  | exit (code : Int)
  /-- An exception leaves `main`: `std::terminate` is called and the process
  ends abnormally, with no value returned from `main`. -/
  | uncaught (e : StodError)
  deriving DecidableEq, Repr

/-- What a run does: the text written to `std::cout` and how the run ends. -/
structure Outcome where
  stdout : String
  term : Termination
  deriving DecidableEq, Repr

/-- The function `main` of `tutorial.cxx`, for the argument vector `argv` (its
length is `argc`).  The result is `none` where the behaviour is undefined:
`argc == 0`, where `argv[0]` is the null pointer and is written to the stream. -/
def main {D : Type} (L : Lib D) (cfg : Config) (argv : List String) : Option Outcome :=
  let argc := argv.length
  if argc < 2 then
    match argv[0]? with
    | none => none
    | some argv0 =>
      some
        { stdout :=
            argv0 ++ " Version "
              ++ toString cfg.Tutorial_VERSION_MAJOR ++ "." ++ toString cfg.Tutorial_VERSION_MAJOR
              ++ "\n"
              ++ "Usage: " ++ argv0 ++ " number" ++ "\n"
          term := .exit 1 }
  else
    match argv[1]? with
    | none => none
    | some argv1 =>
      match stod L argv1 with
      | .error e => some { stdout := "", term := .uncaught e }
      | .ok (inputValue, _) =>
        let outputValue := L.sqrt inputValue
        some
          { stdout :=
              "The square root of "
                ++ L.put inputValue ++ " is " ++ L.put outputValue ++ "\n"
            term := .exit 0 }

/-! ## A library of exact doubles, kept symbolic

The theorems below hold for every library.  To run `main` on concrete argument
vectors a library is needed; this one never rounds and has no range limit, and
keeps its doubles as expressions, so it states no numerical fact beyond the
sign of a number and which expressions are NaNs. -/

/-- The doubles of the symbolic library: the value of a subject sequence, and
the square root of a double. -/
inductive Sym
  | lit (subject : List Char)
  | sqrt (x : Sym)
  deriving DecidableEq, Repr

/-- Whether the digit sequence at the head of `cs` (digits by `digit`, with an
optional radix character) holds a digit other than `0`. -/
def hasNonzeroDigit (digit : Char → Bool) (cs : List Char) : Bool :=
  (cs.takeWhile (fun c => digit c || c == '.')).any (fun c => digit c && c != '0')

/-- Whether the subject sequence `cs` denotes a value less than zero: a minus
sign before a number that is not zero or before an infinity. -/
def subjectNegative (cs : List Char) : Bool :=
  match cs with
  | c :: body =>
    c == '-' &&
      (if hexLen body ≠ 0 then hasNonzeroDigit isxdigit (body.drop 2)
       else if decimalLen body ≠ 0 then hasNonzeroDigit isdigit body
       else infLen body ≠ 0)
  | [] => false

/-- Whether the subject sequence `cs` denotes a NaN. -/
def subjectNaN (cs : List Char) : Bool :=
  nanLen (cs.drop (signLen cs)) ≠ 0

/-- The comparison `x < 0` on symbolic doubles; a square root is never less
than zero. -/
def Sym.ltZero : Sym → Bool
  | .lit cs => subjectNegative cs
  | .sqrt _ => false

/-- The NaNs among the symbolic doubles: a `nan` subject sequence, and the
square root of a NaN or of a value less than zero. -/
def Sym.isnan : Sym → Bool
  | .lit cs => subjectNaN cs
  | .sqrt x => x.ltZero || x.isnan

/-- The rendering of a symbolic double: a subject sequence as it stands, a
square root as `sqrt(...)`. -/
def Sym.put : Sym → String
  | .lit cs => String.mk cs
  | .sqrt x => "sqrt(" ++ x.put ++ ")"

/-- The symbolic library. -/
def symLib : Lib Sym where
  convert := fun cs => some (.lit cs)
  sqrt := .sqrt
  put := Sym.put
  ltZero := Sym.ltZero
  isnan := Sym.isnan
  sqrt_domain := fun x h => by simp [Sym.isnan, h]

/-- The configuration of version 1.0. -/
def version_1_0 : Config where
  Tutorial_VERSION_MAJOR := 1
  Tutorial_VERSION_MINOR := 0

/-! ## Lemmas on the scan -/

/-- A run that stops inside `l₁` is not changed by what follows `l₁`. -/
theorem spanLen_append_of_lt (q : Char → Bool) (l₁ l₂ : List Char)
    (h : spanLen q l₁ < l₁.length) : spanLen q (l₁ ++ l₂) = spanLen q l₁ := by
  induction l₁ with
  | nil => simp at h
  | cons c cs ih =>
    unfold spanLen at h ih ⊢
    by_cases hc : q c = true
    · simp only [List.cons_append, List.takeWhile_cons, hc, if_true, List.length_cons] at h ⊢
      rw [ih (by omega)]
    · simp [List.takeWhile_cons, hc]

/-- White space `w` put in front of `cs` is skipped together with the white
space `cs` starts with: what is left to scan is the same. -/
theorem drop_spanLen_isspace_append (w cs : List Char) (hw : ∀ c ∈ w, isspace c = true) :
    (w ++ cs).drop (spanLen isspace (w ++ cs)) = cs.drop (spanLen isspace cs) := by
  induction w with
  | nil => rfl
  | cons c w ih =>
    have hc : isspace c = true := hw c (List.mem_cons_self c w)
    have ih' := ih (fun d hd => hw d (List.mem_cons_of_mem c hd))
    unfold spanLen at ih' ⊢
    simpa [List.takeWhile_cons, hc] using ih'

/-- White space `w` put in front of `cs` adds its length to the count of
white-space characters skipped. -/
theorem spanLen_isspace_append (w cs : List Char) (hw : ∀ c ∈ w, isspace c = true) :
    spanLen isspace (w ++ cs) = w.length + spanLen isspace cs := by
  induction w with
  | nil => simp
  | cons c w ih =>
    have hc : isspace c = true := hw c (List.mem_cons_self c w)
    have ih' := ih (fun d hd => hw d (List.mem_cons_of_mem c hd))
    unfold spanLen at ih' ⊢
    simp only [List.cons_append, List.takeWhile_cons, hc, if_true, List.length_cons, ih']
    omega

/-! ## Lemmas on `stod` and `main` -/

/-- When `stod` converts all of `p` and the scan of `p ++ s` stops where `p`
ends, `stod` gives `p ++ s` the value it gives `p`. -/
theorem stod_append_of_consumed {D : Type} (L : Lib D) (p s : String) (x : D)
    (hp : stod L p = .ok (x, p.length)) (hs : consumed (p ++ s).toList = p.length) :
    stod L (p ++ s) = .ok (x, p.length) := by
  have hlen : p.length = p.toList.length := rfl
  have happ : (p ++ s).toList = p.toList ++ s.toList := by simp
  rw [hlen] at hp hs ⊢
  rw [happ] at hs
  unfold stod at hp ⊢
  rw [happ]
  generalize p.toList = cs at hp hs ⊢
  generalize s.toList = ss at hs ⊢
  simp only at hp ⊢
  by_cases hn : subjectLen (cs.drop (spanLen isspace cs)) = 0
  · simp [hn] at hp
  · simp only [hn, if_false] at hp
    cases hc : L.convert ((cs.drop (spanLen isspace cs)).take
        (subjectLen (cs.drop (spanLen isspace cs)))) with
    | none => simp [hc] at hp
    | some y =>
      simp only [hc, Except.ok.injEq, Prod.mk.injEq] at hp
      obtain ⟨hy, hsum⟩ := hp
      have hws : spanLen isspace (cs ++ ss) = spanLen isspace cs :=
        spanLen_append_of_lt _ _ _ (by omega)
      unfold consumed at hs
      simp only [hws] at hs ⊢
      by_cases hn' : subjectLen ((cs ++ ss).drop (spanLen isspace cs)) = 0
      · simp only [hn', if_true] at hs
        omega
      · simp only [hn', if_false] at hs ⊢
        have hsame : subjectLen ((cs ++ ss).drop (spanLen isspace cs))
            = subjectLen (cs.drop (spanLen isspace cs)) := by omega
        have htake : ((cs ++ ss).drop (spanLen isspace cs)).take
              (subjectLen (cs.drop (spanLen isspace cs)))
            = (cs.drop (spanLen isspace cs)).take (subjectLen (cs.drop (spanLen isspace cs))) := by
          rw [List.drop_append_of_le_length (by omega), List.take_append_of_le_length]
          rw [List.length_drop]
          omega
        rw [hsame, htake, hc, hy, hsum]

/-- Leading white space does not change what `stod` returns, apart from the
count of characters processed. -/
theorem stod_skips_space {D : Type} (L : Lib D) (w q : String)
    (hw : ∀ c ∈ w.toList, isspace c = true) :
    stod L (w ++ q) = (stod L q).map (fun r => (r.1, w.length + r.2)) := by
  have happ : (w ++ q).toList = w.toList ++ q.toList := by simp
  have hlen : w.length = w.toList.length := rfl
  have h1 := drop_spanLen_isspace_append w.toList q.toList hw
  have h2 := spanLen_isspace_append w.toList q.toList hw
  unfold stod
  rw [happ, hlen]
  generalize w.toList = ws at h1 h2 ⊢
  generalize q.toList = cs at h1 h2 ⊢
  simp only
  rw [h1, h2]
  by_cases hn : subjectLen (cs.drop (spanLen isspace cs)) = 0
  · simp [hn, Except.map]
  · simp only [hn, if_false]
    cases L.convert ((cs.drop (spanLen isspace cs)).take
        (subjectLen (cs.drop (spanLen isspace cs)))) with
    | none => simp [Except.map]
    | some y => simp [Except.map, Nat.add_assoc]

/-- With one argument vector entry, `main` prints the version and the usage
lines and returns 1. -/
theorem main_one {D : Type} (L : Lib D) (cfg : Config) (argv0 : String) :
    main L cfg [argv0] = some
      { stdout := argv0 ++ " Version "
          ++ toString cfg.Tutorial_VERSION_MAJOR ++ "." ++ toString cfg.Tutorial_VERSION_MAJOR
          ++ "\n" ++ "Usage: " ++ argv0 ++ " number" ++ "\n"
        term := .exit 1 } := by
  simp [main]

/-- With two or more entries, what `main` does is decided by `stod` on
`argv[1]`. -/
theorem main_two {D : Type} (L : Lib D) (cfg : Config) (argv0 argv1 : String)
    (rest : List String) :
    main L cfg (argv0 :: argv1 :: rest) =
      match stod L argv1 with
      | .error e => some { stdout := "", term := .uncaught e }
      | .ok (x, _) => some
          { stdout := "The square root of " ++ L.put x ++ " is " ++ L.put (L.sqrt x) ++ "\n"
            term := .exit 0 } := by
  simp [main]

/-! ## The claims -/

/-- C1, counterexample: with `argv[1] = "abc"`, and with `argv[1] = ""`, the
run does not exit with code 0 or 1.  For every library `std::stod` throws
`std::invalid_argument`, nothing catches it, and the exception leaves `main`
before anything is printed. -/
theorem main_non_numeric_uncaught :
    (∀ (D : Type) (L : Lib D) (cfg : Config),
      main L cfg ["Tutorial", "abc"] = some ⟨"", .uncaught .invalid_argument⟩) ∧
    (∀ (D : Type) (L : Lib D) (cfg : Config),
      main L cfg ["Tutorial", ""] = some ⟨"", .uncaught .invalid_argument⟩) ∧
    ¬ ∃ out, main symLib version_1_0 ["Tutorial", "abc"] = some ⟨out, .exit 0⟩ ∨
        main symLib version_1_0 ["Tutorial", "abc"] = some ⟨out, .exit 1⟩ := by
  refine ⟨fun D L cfg => rfl, fun D L cfg => rfl, ?_⟩
  rintro ⟨out, h | h⟩ <;> simp [main_two, stod, spanLen, subjectLen, signLen, unsignedLen,
    hexLen, decimalLen, mantissaLen, infLen, nanLen, startsWithNoCase, lowerCode, isspace,
    isdigit, isxdigit] at h

/-- C1, amended: for every argument vector with `argc >= 1` the run ends in
one of three ways.  With `argc < 2` it exits with code 1.  With `argc >= 2` and
`argv[1]` converted by `std::stod` it exits with code 0.  With `argc >= 2` and
`std::stod` throwing (`std::invalid_argument` or `std::out_of_range`) the
exception leaves `main` uncaught with nothing printed, so the run ends
abnormally and not by an exit with code 0 or 1. -/
theorem main_exit_or_uncaught {D : Type} (L : Lib D) (cfg : Config) (argv : List String)
    (hargc : 1 ≤ argv.length) :
    (argv.length < 2 ∧ ∃ out, main L cfg argv = some ⟨out, .exit 1⟩) ∨
    (2 ≤ argv.length ∧ ∃ argv1 x n, argv[1]? = some argv1 ∧ stod L argv1 = .ok (x, n) ∧
      ∃ out, main L cfg argv = some ⟨out, .exit 0⟩) ∨
    (2 ≤ argv.length ∧ ∃ argv1 e, argv[1]? = some argv1 ∧ stod L argv1 = .error e ∧
      main L cfg argv = some ⟨"", .uncaught e⟩) := by
  match argv, hargc with
  | [argv0], _ =>
    left
    exact ⟨by simp, _, main_one L cfg argv0⟩
  | argv0 :: argv1 :: rest, _ =>
    right
    cases h : stod L argv1 with
    | error e =>
      right
      refine ⟨by simp, argv1, e, by simp, h, ?_⟩
      rw [main_two, h]
    | ok v =>
      obtain ⟨x, n⟩ := v
      left
      refine ⟨by simp, argv1, x, n, by simp, h,
        "The square root of " ++ L.put x ++ " is " ++ L.put (L.sqrt x) ++ "\n", ?_⟩
      rw [main_two, h]

/-- C1, the amended claim at `argv = ["Tutorial", "abc"]`. -/
theorem main_exit_or_uncaught_witness :
    1 ≤ ["Tutorial", "abc"].length ∧
    ((["Tutorial", "abc"].length < 2 ∧
        ∃ out, main symLib version_1_0 ["Tutorial", "abc"] = some ⟨out, .exit 1⟩) ∨
      (2 ≤ ["Tutorial", "abc"].length ∧
        ∃ argv1 x n, ["Tutorial", "abc"][1]? = some argv1 ∧ stod symLib argv1 = .ok (x, n) ∧
          ∃ out, main symLib version_1_0 ["Tutorial", "abc"] = some ⟨out, .exit 0⟩) ∨
      (2 ≤ ["Tutorial", "abc"].length ∧
        ∃ argv1 e, ["Tutorial", "abc"][1]? = some argv1 ∧ stod symLib argv1 = .error e ∧
          main symLib version_1_0 ["Tutorial", "abc"] = some ⟨"", .uncaught e⟩)) :=
  ⟨by decide, main_exit_or_uncaught symLib version_1_0 ["Tutorial", "abc"] (by decide)⟩

/-- C2: for every argument vector with `argc >= 1`, `main` returns 1 if and
only if `argc < 2`; and with `argc < 2` it prints the version line and the line
`Usage: <argv[0]> number` and nothing else, returns 1, and does so whatever the
library is: nothing is parsed. -/
theorem main_exit_one_iff {D : Type} (L : Lib D) (cfg : Config) (argv : List String)
    (hargc : 1 ≤ argv.length) :
    ((∃ out, main L cfg argv = some ⟨out, .exit 1⟩) ↔ argv.length < 2) ∧
    (argv.length < 2 →
      ∃ argv0, argv[0]? = some argv0 ∧
        main L cfg argv = some
          { stdout := argv0 ++ " Version "
              ++ toString cfg.Tutorial_VERSION_MAJOR ++ "."
              ++ toString cfg.Tutorial_VERSION_MAJOR ++ "\n"
              ++ "Usage: " ++ argv0 ++ " number" ++ "\n"
            term := .exit 1 } ∧
        ∀ (E : Type) (M : Lib E), main M cfg argv = main L cfg argv) := by
  match argv, hargc with
  | [argv0], _ =>
    refine ⟨⟨fun _ => by simp, fun _ => ⟨_, main_one L cfg argv0⟩⟩, fun _ => ?_⟩
    exact ⟨argv0, rfl, main_one L cfg argv0, fun E M => by rw [main_one, main_one]⟩
  | argv0 :: argv1 :: rest, _ =>
    refine ⟨⟨?_, fun h => ?_⟩, fun h => ?_⟩
    rotate_left
    · simp only [List.length_cons] at h
      omega
    · simp only [List.length_cons] at h
      omega
    rintro ⟨out, h⟩
    rw [main_two] at h
    cases hs : stod L argv1 with
    | error e => simp [hs] at h
    | ok v => simp [hs] at h

/-- C2 at `argv = ["Tutorial"]`. -/
theorem main_exit_one_iff_witness :
    1 ≤ ["Tutorial"].length ∧
    ((∃ out, main symLib version_1_0 ["Tutorial"] = some ⟨out, .exit 1⟩) ↔
      ["Tutorial"].length < 2) ∧
    (["Tutorial"].length < 2 →
      ∃ argv0, ["Tutorial"][0]? = some argv0 ∧
        main symLib version_1_0 ["Tutorial"] = some
          { stdout := argv0 ++ " Version "
              ++ toString version_1_0.Tutorial_VERSION_MAJOR ++ "."
              ++ toString version_1_0.Tutorial_VERSION_MAJOR ++ "\n"
              ++ "Usage: " ++ argv0 ++ " number" ++ "\n"
            term := .exit 1 } ∧
        ∀ (E : Type) (M : Lib E),
          main M version_1_0 ["Tutorial"] = main symLib version_1_0 ["Tutorial"]) :=
  ⟨by decide, main_exit_one_iff symLib version_1_0 ["Tutorial"] (by decide)⟩

/-- C3: for every argument vector with `argc >= 2` whose `argv[1]` is converted
by `std::stod` to `x`, `main` prints the one line
`The square root of <x> is <r>`, with `<x>` the rendering of the parsed value
and `<r>` the rendering of `sqrt` of that value, and returns 0. -/
theorem main_prints_sqrt {D : Type} (L : Lib D) (cfg : Config) (argv : List String)
    (argv1 : String) (x : D) (n : Nat)
    (hargc : 2 ≤ argv.length) (hargv : argv[1]? = some argv1)
    (hx : stod L argv1 = .ok (x, n)) :
    main L cfg argv = some
      { stdout := "The square root of " ++ L.put x ++ " is " ++ L.put (L.sqrt x) ++ "\n"
        term := .exit 0 } := by
  match argv, hargc with
  | argv0 :: a :: rest, _ =>
    simp only [List.getElem?_cons_succ, List.getElem?_cons_zero, Option.some.injEq] at hargv
    subst hargv
    rw [main_two, hx]

/-- C3 at `argv = ["Tutorial", "2.25"]`, read by the symbolic library. -/
theorem main_prints_sqrt_witness :
    2 ≤ ["Tutorial", "2.25"].length ∧
    ["Tutorial", "2.25"][1]? = some "2.25" ∧
    stod symLib "2.25" = .ok (.lit "2.25".toList, 4) ∧
    main symLib version_1_0 ["Tutorial", "2.25"] = some
      { stdout := "The square root of " ++ symLib.put (.lit "2.25".toList) ++ " is "
          ++ symLib.put (symLib.sqrt (.lit "2.25".toList)) ++ "\n"
        term := .exit 0 } :=
  ⟨by decide, rfl, rfl,
    main_prints_sqrt symLib version_1_0 ["Tutorial", "2.25"] "2.25" (.lit "2.25".toList) 4
      (by decide) rfl rfl⟩

/-- C4, the code at the failing input: configured as version 1.0 and run
without a number, the program prints `Tutorial Version 1.1`.  The banner
writes `Tutorial_VERSION_MAJOR` on both sides of the dot, and for no argument
vector does a run depend on `Tutorial_VERSION_MINOR`. -/
theorem main_version_prints_major_twice :
    main symLib version_1_0 ["Tutorial"] =
      some ⟨"Tutorial Version 1.1\nUsage: Tutorial number\n", .exit 1⟩ ∧
    ∀ (D : Type) (L : Lib D) (major minor other : Nat) (argv : List String),
      main L ⟨major, minor⟩ argv = main L ⟨major, other⟩ argv :=
  ⟨rfl, fun _ _ _ _ _ _ => rfl⟩

/-- C5: two argument vectors with `argc >= 2` that agree on `argv[1]` give the
same run (output and way of ending), whatever `argv[0]`, `argc` and the
further entries are. -/
theorem main_depends_on_argv1_only {D : Type} (L : Lib D) (cfg : Config)
    (argv argv' : List String)
    (hargc : 2 ≤ argv.length) (hargc' : 2 ≤ argv'.length) (h1 : argv[1]? = argv'[1]?) :
    main L cfg argv = main L cfg argv' := by
  match argv, hargc, argv', hargc' with
  | argv0 :: a :: rest, _, argv0' :: a' :: rest', _ =>
    simp only [List.getElem?_cons_succ, List.getElem?_cons_zero, Option.some.injEq] at h1
    subst h1
    rw [main_two, main_two]

/-- C5 at `["Tutorial", "4"]` and `["./a.out", "4", "x", "5"]`. -/
theorem main_depends_on_argv1_only_witness :
    2 ≤ ["Tutorial", "4"].length ∧ 2 ≤ ["./a.out", "4", "x", "5"].length ∧
    ["Tutorial", "4"][1]? = ["./a.out", "4", "x", "5"][1]? ∧
    main symLib version_1_0 ["Tutorial", "4"]
      = main symLib version_1_0 ["./a.out", "4", "x", "5"] :=
  ⟨by decide, by decide, rfl,
    main_depends_on_argv1_only symLib version_1_0 ["Tutorial", "4"] ["./a.out", "4", "x", "5"]
      (by decide) (by decide) rfl⟩

/-- C6: when `std::stod` converts `argv[1]` to a value `x` less than zero,
`main` still prints `The square root of <x> is <r>` with `<r>` the rendering of
`sqrt x`, which is a NaN, and returns 0; a value that is not less than zero
gets the same line and the same exit code. -/
theorem main_negative_no_domain_check {D : Type} (L : Lib D) (cfg : Config)
    (argv : List String) (argv1 : String) (x : D) (n : Nat)
    (hargv : argv[1]? = some argv1) (hx : stod L argv1 = .ok (x, n))
    (hneg : L.ltZero x = true) :
    main L cfg argv = some
      { stdout := "The square root of " ++ L.put x ++ " is " ++ L.put (L.sqrt x) ++ "\n"
        term := .exit 0 } ∧
    L.isnan (L.sqrt x) = true ∧
    ∀ (other : List String) (other1 : String) (y : D) (m : Nat),
      other[1]? = some other1 → stod L other1 = .ok (y, m) → L.ltZero y = false →
      main L cfg other = some
        { stdout := "The square root of " ++ L.put y ++ " is " ++ L.put (L.sqrt y) ++ "\n"
          term := .exit 0 } := by
  have key : ∀ (l : List String) (l1 : String) (z : D) (k : Nat),
      l[1]? = some l1 → stod L l1 = .ok (z, k) →
      main L cfg l = some
        { stdout := "The square root of " ++ L.put z ++ " is " ++ L.put (L.sqrt z) ++ "\n"
          term := .exit 0 } := by
    intro l l1 z k hl hz
    match l, hl with
    | [], hl => simp at hl
    | [_], hl => simp at hl
    | _ :: a :: _, hl =>
      simp only [List.getElem?_cons_succ, List.getElem?_cons_zero, Option.some.injEq] at hl
      subst hl
      rw [main_two, hz]
  exact ⟨key argv argv1 x n hargv hx, L.sqrt_domain x hneg,
    fun other other1 y m ho hy _ => key other other1 y m ho hy⟩

/-- C6 at `argv = ["Tutorial", "-4"]`, read by the symbolic library. -/
theorem main_negative_no_domain_check_witness :
    ["Tutorial", "-4"][1]? = some "-4" ∧
    stod symLib "-4" = .ok (.lit "-4".toList, 2) ∧
    symLib.ltZero (.lit "-4".toList) = true ∧
    main symLib version_1_0 ["Tutorial", "-4"] = some
      { stdout := "The square root of " ++ symLib.put (.lit "-4".toList) ++ " is "
          ++ symLib.put (symLib.sqrt (.lit "-4".toList)) ++ "\n"
        term := .exit 0 } ∧
    symLib.isnan (symLib.sqrt (.lit "-4".toList)) = true :=
  have h := main_negative_no_domain_check symLib version_1_0 ["Tutorial", "-4"] "-4"
    (.lit "-4".toList) 2 rfl rfl rfl
  ⟨rfl, rfl, rfl, h.1, h.2.1⟩

/-- C7: `main` uses the value `std::stod` returns and not the count of
characters it processed.  When `std::stod` converts all of `p` to `x` and the
scan of `p ++ s` stops where `p` ends (`s` does not extend the number), a run
with `argv[1] = p ++ s` prints the same line and returns the same exit code 0
as a run with `argv[1] = p`; and white space `w` in front of `argv[1]` never
changes a run. -/
theorem main_uses_numeric_head_only {D : Type} (L : Lib D) (cfg : Config)
    (argv0 argv0' : String) (rest rest' : List String) (p s w : String) (x : D)
    (hp : stod L p = .ok (x, p.length))
    (hs : consumed (p ++ s).toList = p.length)
    (hw : ∀ c ∈ w.toList, isspace c = true) :
    main L cfg (argv0 :: (p ++ s) :: rest) = main L cfg (argv0' :: p :: rest') ∧
    main L cfg (argv0' :: p :: rest') = some
      { stdout := "The square root of " ++ L.put x ++ " is " ++ L.put (L.sqrt x) ++ "\n"
        term := .exit 0 } ∧
    ∀ q : String, main L cfg (argv0 :: (w ++ q) :: rest) = main L cfg (argv0' :: q :: rest') := by
  refine ⟨?_, ?_, fun q => ?_⟩
  · rw [main_two, main_two, stod_append_of_consumed L p s x hp hs, hp]
  · rw [main_two, hp]
  · rw [main_two, main_two, stod_skips_space L w q hw]
    cases stod L q with
    | error e => rfl
    | ok v => rfl

/-- C7 at `p = "4"`, `s = "abc"` and `w = " "`, read by the symbolic library. -/
theorem main_uses_numeric_head_only_witness :
    stod symLib "4" = .ok (.lit "4".toList, "4".length) ∧
    consumed ("4" ++ "abc").toList = "4".length ∧
    (∀ c ∈ " ".toList, isspace c = true) ∧
    main symLib version_1_0 ["Tutorial", "4" ++ "abc", "5"]
      = main symLib version_1_0 ["./a.out", "4"] ∧
    main symLib version_1_0 ["./a.out", "4"] = some
      { stdout := "The square root of " ++ symLib.put (.lit "4".toList) ++ " is "
          ++ symLib.put (symLib.sqrt (.lit "4".toList)) ++ "\n"
        term := .exit 0 } ∧
    ∀ q : String, main symLib version_1_0 ["Tutorial", " " ++ q, "5"]
      = main symLib version_1_0 ["./a.out", q] :=
  ⟨rfl, rfl, by decide,
    main_uses_numeric_head_only symLib version_1_0 "Tutorial" "./a.out" ["5"] [] "4" "abc" " "
      (.lit "4".toList) rfl rfl (by decide)⟩

end Tutorial
